import Mathlib

/- Shallow embedding of the Ignite Timer cycle store
(`src/contexts/CyclesContext.tsx`), of the countdown tick effect
(`Countdown` component), and of the new-cycle form validation schemas
(zod schemas in the two `Home` page revisions), together with proofs of
the specification claims about them.

Timestamps (`new Date()` / `getTime()`) are modelled as natural numbers of
milliseconds; every operation takes the clock reading at the moment it runs
as an explicit parameter (the source reads the wall clock with `new Date()`
inside the operation).  JavaScript numbers flowing through the form are
modelled as rationals, since the zod schema accepts non-integers. -/

namespace IgniteTimer

/-- The `ICycle` interface of `CyclesContext.tsx`. -/
structure ICycle where
  id : String
  task : String
  minutesAmount : ℚ
  startDate : Nat
  interruptedDate : Option Nat
  finishedDate : Option Nat
deriving DecidableEq

/-- The `CyclesState` held by the reducer: the cycle list and the
active-cycle pointer (`string | null`). -/
structure CyclesState where
  cycles : List ICycle
  activeCycleId : Option String
deriving DecidableEq

/-- A dispatched action: the string tag and the optional `newCycle` payload.
The interrupt/finish dispatch sites pass `{ activeCycleId }` as payload,
which the reducer never reads, so that payload is not modelled. -/
structure Action where
  type : String
  newCycle : Option ICycle
deriving DecidableEq

/-- The reducer function passed to `useReducer` in `CyclesContextProvider`
(switch on `action.type`).  `now` is the clock reading of the `new Date()`
calls made inside the reducer; `cycle.id === state.activeCycleId` compares a
string with `string | null`, modelled as equality in `Option String`.  The
`ADD_NEW_CYCLE` case with a missing payload cannot be reached from any
dispatch site in the source. -/
def cyclesReducer (now : Nat) (state : CyclesState) (action : Action) : CyclesState :=
  if action.type = "ADD_NEW_CYCLE" then
    match action.newCycle with
    | some newCycle =>
        { cycles := state.cycles ++ [newCycle]
          activeCycleId := some newCycle.id }
    | none => state
  else if action.type = "INTERRUPT_CURRENT_CYCLE" then
    { cycles := state.cycles.map fun cycle =>
        if some cycle.id = state.activeCycleId then
          { cycle with interruptedDate := some now }
        else cycle
      activeCycleId := none }
  else if action.type = "MARK_CURRENT_CYCLE_AS_FINISHED" then
    { cycles := state.cycles.map fun cycle =>
        if some cycle.id = state.activeCycleId then
          { cycle with finishedDate := some now }
        else cycle
      activeCycleId := none }
  else
    state

/-- The `CreateCycleData` payload handed to `createNewCycle`. -/
structure CreateCycleData where
  task : String
  minutesAmount : ℚ
deriving DecidableEq

/-- The provider state: the reducer state plus the `amountSecondsPassed`
`useState` counter. -/
structure ProviderState where
  cyclesState : CyclesState
  amountSecondsPassed : ℚ
deriving DecidableEq

/-- The initial provider state: empty cycle list, no active id, zero
seconds passed. -/
def initialProviderState : ProviderState :=
  { cyclesState := { cycles := [], activeCycleId := none }
    amountSecondsPassed := 0 }

/-- The cycle object built inside `createNewCycle`:
`id = String(new Date().getTime())`, `startDate = new Date()`, no terminal
dates.  Both clock reads are modelled as the same reading `now`. -/
def newCycleOf (now : Nat) (data : CreateCycleData) : ICycle :=
  { id := toString now
    task := data.task
    minutesAmount := data.minutesAmount
    startDate := now
    interruptedDate := none
    finishedDate := none }

/-- `createNewCycle` of the provider: builds the new cycle, dispatches
`ADD_NEW_CYCLE`, and resets `amountSecondsPassed` to 0.  It performs no
validation of `data`. -/
def createNewCycle (now : Nat) (ps : ProviderState) (data : CreateCycleData) : ProviderState :=
  { cyclesState :=
      cyclesReducer now ps.cyclesState
        { type := "ADD_NEW_CYCLE", newCycle := some (newCycleOf now data) }
    amountSecondsPassed := 0 }

/-- `interruptCurrentCycle` of the provider: dispatches
`INTERRUPT_CURRENT_CYCLE` and leaves `amountSecondsPassed` untouched. -/
def interruptCurrentCycle (now : Nat) (ps : ProviderState) : ProviderState :=
  { ps with
    cyclesState :=
      cyclesReducer now ps.cyclesState
        { type := "INTERRUPT_CURRENT_CYCLE", newCycle := none } }

/-- `markCurrentCycleAsFinished` of the provider: dispatches
`MARK_CURRENT_CYCLE_AS_FINISHED` and leaves `amountSecondsPassed`
untouched. -/
def markCurrentCycleAsFinished (now : Nat) (ps : ProviderState) : ProviderState :=
  { ps with
    cyclesState :=
      cyclesReducer now ps.cyclesState
        { type := "MARK_CURRENT_CYCLE_AS_FINISHED", newCycle := none } }

/-- `setSecondsPassed` of the provider. -/
def setSecondsPassed (seconds : ℚ) (ps : ProviderState) : ProviderState :=
  { ps with amountSecondsPassed := seconds }

/-- The derived `activeCycle` query:
`cycles.find((cycle) => cycle.id === activeCycleId)`. -/
def activeCycle (ps : ProviderState) : Option ICycle :=
  ps.cyclesState.cycles.find? fun cycle =>
    decide (some cycle.id = ps.cyclesState.activeCycleId)

/-- `differenceInSeconds` of date-fns applied to millisecond timestamps:
the full-second difference, truncated. -/
def differenceInSeconds (laterDate earlierDate : Nat) : Nat :=
  (laterDate - earlierDate) / 1000

/-- The outcome of one interval tick of the `Countdown` component: whether
`markCurrentCycleAsFinished` was called, and the value passed to
`setSecondsPassed`. -/
structure CountdownTickResult where
  finished : Bool
  reportedSecondsPassed : ℚ
deriving DecidableEq

/-- One tick of the `setInterval` callback in `Countdown` (which only runs
while there is an active cycle): computes `secondsDifference` from the wall
clock and the cycle's `startDate`; when it reaches `totalSeconds`
(`minutesAmount * 60`) it finishes the cycle and reports exactly
`totalSeconds`, otherwise it reports `secondsDifference`. -/
def countdownTick (c : ICycle) (now : Nat) : CountdownTickResult :=
  let totalSeconds : ℚ := c.minutesAmount * 60
  let secondsDifference : ℚ := (differenceInSeconds now c.startDate : ℚ)
  if totalSeconds ≤ secondsDifference then
    { finished := true, reportedSecondsPassed := totalSeconds }
  else
    { finished := false, reportedSecondsPassed := secondsDifference }

/-- One user-level store operation. -/
inductive Op where
  | create (data : CreateCycleData)
  | interrupt
  | finish
deriving DecidableEq

/-- An operation together with the wall-clock reading at which it runs. -/
structure TimedOp where
  op : Op
  time : Nat
deriving DecidableEq

/-- Apply one timed operation to the provider state. -/
def applyOp (ps : ProviderState) (t : TimedOp) : ProviderState :=
  match t.op with
  | Op.create data => createNewCycle t.time ps data
  | Op.interrupt => interruptCurrentCycle t.time ps
  | Op.finish => markCurrentCycleAsFinished t.time ps

/-- Run a sequence of timed operations from a provider state. -/
def runOps (ps : ProviderState) (ops : List TimedOp) : ProviderState :=
  ops.foldl applyOp ps

/-- A cycle with neither `interruptedDate` nor `finishedDate`: this is what
the specification calls an active (non-terminal) cycle. -/
def lacksTerminalDates (c : ICycle) : Bool :=
  decide (c.interruptedDate = none ∧ c.finishedDate = none)

/-- A cycle with `interruptedDate` or `finishedDate` set: terminal in the
specification's vocabulary. -/
def isTerminal (c : ICycle) : Bool :=
  decide (c.interruptedDate ≠ none ∨ c.finishedDate ≠ none)

/-- How many cycles in the store lack both terminal dates. -/
def activeLikeCount (s : CyclesState) : Nat :=
  (s.cycles.filter lacksTerminalDates).length

/-- The ids of the cycles in the store, in list order. -/
def cycleIds (s : CyclesState) : List String :=
  s.cycles.map ICycle.id

/-- A trace is guarded when every `create` runs while no cycle is active
(`activeCycleId` is null) — exactly the discipline the UI enforces by
replacing the start button with the stop button while a cycle runs. -/
def guardedTrace (ps : ProviderState) : List TimedOp → Bool
  | [] => true
  | t :: rest =>
      (match t.op with
       | Op.create _ => decide (ps.cyclesState.activeCycleId = none)
       | _ => true)
      && guardedTrace (applyOp ps t) rest

/-- A trace is fresh when every `create` runs at a millisecond whose decimal
string (the generated id) does not collide with an existing cycle id — in
particular this holds whenever no two creations share a millisecond. -/
def freshTrace (ps : ProviderState) : List TimedOp → Bool
  | [] => true
  | t :: rest =>
      (match t.op with
       | Op.create _ => decide (toString t.time ∉ cycleIds ps.cyclesState)
       | _ => true)
      && freshTrace (applyOp ps t) rest

/-- The raw form input `{task, minutesAmount}` handed to the zod schema. -/
structure NewCycleRawInput where
  task : String
  minutesAmount : ℚ
deriving DecidableEq

/-- The `newCycleFormValidationSchema` of the current `Home` page
(`zod.string().min(1)` on `task`, `zod.number().min(1).max(60)` on
`minutesAmount`): the list of (field, message) issues; the input is
accepted iff the list is empty.  The schema neither trims the task nor
requires `minutesAmount` to be an integer. -/
def newCycleFormValidationSchema (input : NewCycleRawInput) : List (String × String) :=
  (if input.task.length < 1 then [("task", "Informe a tarefa")] else [])
    ++ (if input.minutesAmount < 1 then
          [("minutesAmount", "O ciclo precisa ser de, no minimo, 5 minutos")]
        else [])
    ++ (if 60 < input.minutesAmount then
          [("minutesAmount", "O ciclo precisa ser de, no maximo, 60 minutos")]
        else [])

/-- The schema of the earlier `Home` revision (`pages/Home/index.tsx`),
identical except for the `min(5)` lower bound. -/
def newCycleFormValidationSchemaMinFive (input : NewCycleRawInput) : List (String × String) :=
  (if input.task.length < 1 then [("task", "Informe a tarefa")] else [])
    ++ (if input.minutesAmount < 5 then
          [("minutesAmount", "O ciclo precisa ser de, no minimo, 5 minutos")]
        else [])
    ++ (if 60 < input.minutesAmount then
          [("minutesAmount", "O ciclo precisa ser de, no maximo, 60 minutos")]
        else [])

/-- Acceptance condition exactly as the specification words it (for a given
lower bound `lo`): `task` non-empty after trimming, `minutesAmount` an
integer within `[lo, 60]`.  Written from the spec, to be compared with the
schemas above. -/
def specFormAccepts (lo : ℚ) (input : NewCycleRawInput) : Prop :=
  input.task.trim ≠ "" ∧ input.minutesAmount.den = 1 ∧
    lo ≤ input.minutesAmount ∧ input.minutesAmount ≤ 60

/-- C10: dispatching an action whose type is none of `ADD_NEW_CYCLE`,
`INTERRUPT_CURRENT_CYCLE`, `MARK_CURRENT_CYCLE_AS_FINISHED` returns the
state completely unchanged, for every state. -/
theorem cyclesReducer_unknown_action_noop (now : Nat) (state : CyclesState) (action : Action)
    (h1 : action.type ≠ "ADD_NEW_CYCLE")
    (h2 : action.type ≠ "INTERRUPT_CURRENT_CYCLE")
    (h3 : action.type ≠ "MARK_CURRENT_CYCLE_AS_FINISHED") :
    cyclesReducer now state action = state := by
  simp [cyclesReducer, h1, h2, h3]

/-- Witness for `cyclesReducer_unknown_action_noop` at a concrete unknown
action. -/
theorem cyclesReducer_unknown_action_noop_witness :
    ("RESET" : String) ≠ "ADD_NEW_CYCLE" ∧
      cyclesReducer 1000 { cycles := [], activeCycleId := none }
          { type := "RESET", newCycle := none }
        = { cycles := [], activeCycleId := none } :=
  ⟨by decide,
   cyclesReducer_unknown_action_noop 1000 { cycles := [], activeCycleId := none }
     { type := "RESET", newCycle := none } (by decide) (by decide) (by decide)⟩

/-- C2 counterexample: `createNewCycle` with an empty task and
`minutesAmount = 0` does not reject — it appends a cycle, so the state does
change, contrary to the claim that the store re-validates the input. -/
theorem createNewCycle_no_validation_counterexample :
    (createNewCycle 1000 initialProviderState
        { task := "", minutesAmount := 0 }).cyclesState.cycles ≠ [] := by
  decide

/-- C2 amended: the store performs no validation at all: for every input,
including an empty task or a non-positive `minutesAmount`, `createNewCycle`
appends exactly one cycle built from the given data, makes its id the
active one and resets the elapsed-seconds counter. -/
theorem createNewCycle_appends_unconditionally (now : Nat) (ps : ProviderState)
    (data : CreateCycleData) :
    (createNewCycle now ps data).cyclesState.cycles
        = ps.cyclesState.cycles ++ [newCycleOf now data]
      ∧ (createNewCycle now ps data).cyclesState.activeCycleId = some (toString now)
      ∧ (createNewCycle now ps data).amountSecondsPassed = 0 :=
  ⟨rfl, rfl, rfl⟩

/-- C4: for every valid input (non-empty task, positive integer
`minutesAmount`), `createNewCycle` appends exactly one new cycle, that
cycle's id becomes the active pointer, its `startDate` is the creation
time, it has no terminal timestamps, and the elapsed-seconds counter is
reset to 0. -/
theorem createNewCycle_valid_input (now : Nat) (ps : ProviderState) (data : CreateCycleData)
    (_htask : data.task ≠ "")
    (_hpos : 0 < data.minutesAmount)
    (_hint : data.minutesAmount.den = 1) :
    (createNewCycle now ps data).cyclesState.cycles
        = ps.cyclesState.cycles ++ [newCycleOf now data]
      ∧ (newCycleOf now data).startDate = now
      ∧ (newCycleOf now data).interruptedDate = none
      ∧ (newCycleOf now data).finishedDate = none
      ∧ (createNewCycle now ps data).cyclesState.activeCycleId
          = some (newCycleOf now data).id
      ∧ (createNewCycle now ps data).amountSecondsPassed = 0 :=
  ⟨rfl, rfl, rfl, rfl, rfl, rfl⟩

/-- Witness for `createNewCycle_valid_input` at a concrete valid input. -/
theorem createNewCycle_valid_input_witness :
    ("study" : String) ≠ "" ∧ (0 : ℚ) < 25 ∧ ((25 : ℚ)).den = 1 ∧
      (createNewCycle 1000 initialProviderState
          { task := "study", minutesAmount := 25 }).cyclesState.cycles
        = [newCycleOf 1000 { task := "study", minutesAmount := 25 }] :=
  ⟨by decide, by decide, by decide,
   (createNewCycle_valid_input 1000 initialProviderState
      { task := "study", minutesAmount := 25 } (by decide) (by decide) (by decide)).1⟩

/-- Interrupting with no active cycle leaves the provider state unchanged:
no cycle's id equals a null pointer, so the map is the identity, and the
pointer stays null. -/
theorem interruptCurrentCycle_noop_of_no_active (now : Nat) (ps : ProviderState)
    (h : ps.cyclesState.activeCycleId = none) :
    interruptCurrentCycle now ps = ps := by
  obtain ⟨⟨cycles, aid⟩, secs⟩ := ps
  simp only at h
  subst h
  simp [interruptCurrentCycle, cyclesReducer]

/-- Finishing with no active cycle leaves the provider state unchanged. -/
theorem markCurrentCycleAsFinished_noop_of_no_active (now : Nat) (ps : ProviderState)
    (h : ps.cyclesState.activeCycleId = none) :
    markCurrentCycleAsFinished now ps = ps := by
  obtain ⟨⟨cycles, aid⟩, secs⟩ := ps
  simp only at h
  subst h
  simp [markCurrentCycleAsFinished, cyclesReducer]

/-- C7: `interruptCurrentCycle` and `markCurrentCycleAsFinished` are
no-ops when `activeCycleId` is null (every cycle and the pointer are left
unchanged; the functions are total, so no error is raised); otherwise they
stamp `interruptedDate` (respectively `finishedDate`) with the current time
on the cycle(s) bearing the active id and clear the pointer. -/
theorem terminal_intents_noop_or_stamp (now : Nat) (ps : ProviderState) :
    (ps.cyclesState.activeCycleId = none →
        interruptCurrentCycle now ps = ps ∧ markCurrentCycleAsFinished now ps = ps)
      ∧ ∀ i : String, ps.cyclesState.activeCycleId = some i →
          (interruptCurrentCycle now ps).cyclesState.activeCycleId = none
            ∧ (∀ k : Nat, (interruptCurrentCycle now ps).cyclesState.cycles[k]?
                = (ps.cyclesState.cycles[k]?).map fun c =>
                    if c.id = i then { c with interruptedDate := some now } else c)
            ∧ (markCurrentCycleAsFinished now ps).cyclesState.activeCycleId = none
            ∧ (∀ k : Nat, (markCurrentCycleAsFinished now ps).cyclesState.cycles[k]?
                = (ps.cyclesState.cycles[k]?).map fun c =>
                    if c.id = i then { c with finishedDate := some now } else c) := by
  constructor
  · intro h
    exact ⟨interruptCurrentCycle_noop_of_no_active now ps h,
      markCurrentCycleAsFinished_noop_of_no_active now ps h⟩
  · intro i h
    obtain ⟨⟨cycles, aid⟩, secs⟩ := ps
    simp only at h
    subst h
    refine ⟨rfl, ?_, rfl, ?_⟩ <;>
      · intro k
        simp [interruptCurrentCycle, markCurrentCycleAsFinished, cyclesReducer,
          List.getElem?_map]

/-- Witness for `terminal_intents_noop_or_stamp`, discharging both the
null-pointer hypothesis (at the initial state) and the active-pointer
hypothesis (at a state with one running cycle). -/
theorem terminal_intents_noop_or_stamp_witness :
    (initialProviderState.cyclesState.activeCycleId = none ∧
        interruptCurrentCycle 9 initialProviderState = initialProviderState)
      ∧ ((createNewCycle 5 initialProviderState
            { task := "a", minutesAmount := 25 }).cyclesState.activeCycleId = some "5" ∧
          (interruptCurrentCycle 9 (createNewCycle 5 initialProviderState
            { task := "a", minutesAmount := 25 })).cyclesState.activeCycleId = none) :=
  ⟨⟨rfl, ((terminal_intents_noop_or_stamp 9 initialProviderState).1 rfl).1⟩,
   ⟨rfl, ((terminal_intents_noop_or_stamp 9 (createNewCycle 5 initialProviderState
      { task := "a", minutesAmount := 25 })).2 "5" rfl).1⟩⟩

/-- C8: the cycle list is append-only: `createNewCycle` appends exactly one
cycle at the end; `interruptCurrentCycle` and `markCurrentCycleAsFinished`
preserve the list's length and order and change no field of any cycle other
than setting the terminal date on the cycle(s) matching the active id. -/
theorem cycle_list_append_only (now : Nat) (ps : ProviderState) (data : CreateCycleData) :
    (createNewCycle now ps data).cyclesState.cycles
        = ps.cyclesState.cycles ++ [newCycleOf now data]
      ∧ ((interruptCurrentCycle now ps).cyclesState.cycles.length
            = ps.cyclesState.cycles.length
          ∧ ∀ k : Nat, (interruptCurrentCycle now ps).cyclesState.cycles[k]?
              = (ps.cyclesState.cycles[k]?).map fun c =>
                  if some c.id = ps.cyclesState.activeCycleId then
                    { c with interruptedDate := some now }
                  else c)
      ∧ ((markCurrentCycleAsFinished now ps).cyclesState.cycles.length
            = ps.cyclesState.cycles.length
          ∧ ∀ k : Nat, (markCurrentCycleAsFinished now ps).cyclesState.cycles[k]?
              = (ps.cyclesState.cycles[k]?).map fun c =>
                  if some c.id = ps.cyclesState.activeCycleId then
                    { c with finishedDate := some now }
                  else c) := by
  refine ⟨rfl, ⟨?_, ?_⟩, ⟨?_, ?_⟩⟩ <;>
    simp [interruptCurrentCycle, markCurrentCycleAsFinished, cyclesReducer,
      List.getElem?_map]

/-- C3: the elapsed seconds reported by one countdown tick never exceed
`minutesAmount * 60`, and as soon as the wall-clock difference reaches the
target the tick fires the finish intent and reports exactly the target. -/
theorem countdown_tick_clamped (c : ICycle) (now : Nat) :
    (countdownTick c now).reportedSecondsPassed ≤ c.minutesAmount * 60
      ∧ (c.minutesAmount * 60 ≤ (differenceInSeconds now c.startDate : ℚ) →
          (countdownTick c now).finished = true
            ∧ (countdownTick c now).reportedSecondsPassed = c.minutesAmount * 60) := by
  by_cases h : c.minutesAmount * 60 ≤ (differenceInSeconds now c.startDate : ℚ)
  · exact ⟨by simp [countdownTick, h], fun _ => ⟨by simp [countdownTick, h],
      by simp [countdownTick, h]⟩⟩
  · refine ⟨?_, fun hh => absurd hh h⟩
    simp only [countdownTick, if_neg h]
    exact le_of_not_le h

/-- Witness for `countdown_tick_clamped` at a 25-minute cycle observed
1 500 000 ms (= 1500 s) after its start. -/
theorem countdown_tick_clamped_witness :
    ((newCycleOf 0 { task := "a", minutesAmount := 25 }).minutesAmount * 60
        ≤ (differenceInSeconds 1500000
            (newCycleOf 0 { task := "a", minutesAmount := 25 }).startDate : ℚ))
      ∧ (countdownTick (newCycleOf 0 { task := "a", minutesAmount := 25 }) 1500000).finished
          = true :=
  ⟨by norm_num [newCycleOf, differenceInSeconds],
   ((countdown_tick_clamped (newCycleOf 0 { task := "a", minutesAmount := 25 }) 1500000).2
      (by norm_num [newCycleOf, differenceInSeconds])).1⟩

/-- Unfolding of `applyOp` on a create step: the cycle list grows by the
new cycle. -/
theorem applyOp_create_cycles (ps : ProviderState) (d : CreateCycleData) (time : Nat) :
    (applyOp ps { op := Op.create d, time := time }).cyclesState.cycles
      = ps.cyclesState.cycles ++ [newCycleOf time d] := rfl

/-- Unfolding of `applyOp` on a create step: the pointer becomes the new
cycle's id. -/
theorem applyOp_create_activeId (ps : ProviderState) (d : CreateCycleData) (time : Nat) :
    (applyOp ps { op := Op.create d, time := time }).cyclesState.activeCycleId
      = some (toString time) := rfl

/-- Unfolding of `applyOp` on an interrupt step. -/
theorem applyOp_interrupt_cycles (ps : ProviderState) (time : Nat) :
    (applyOp ps { op := Op.interrupt, time := time }).cyclesState.cycles
      = ps.cyclesState.cycles.map (fun c =>
          if some c.id = ps.cyclesState.activeCycleId then
            { c with interruptedDate := some time }
          else c) := rfl

/-- Unfolding of `applyOp` on an interrupt step: the pointer is cleared. -/
theorem applyOp_interrupt_activeId (ps : ProviderState) (time : Nat) :
    (applyOp ps { op := Op.interrupt, time := time }).cyclesState.activeCycleId = none := rfl

/-- Unfolding of `applyOp` on a finish step. -/
theorem applyOp_finish_cycles (ps : ProviderState) (time : Nat) :
    (applyOp ps { op := Op.finish, time := time }).cyclesState.cycles
      = ps.cyclesState.cycles.map (fun c =>
          if some c.id = ps.cyclesState.activeCycleId then
            { c with finishedDate := some time }
          else c) := rfl

/-- Unfolding of `applyOp` on a finish step: the pointer is cleared. -/
theorem applyOp_finish_activeId (ps : ProviderState) (time : Nat) :
    (applyOp ps { op := Op.finish, time := time }).cyclesState.activeCycleId = none := rfl

/-- Invariant behind the one-active-cycle property: every cycle lacking
both terminal dates bears the active id, and at most one such cycle
exists. -/
def ActivePointerInv (ps : ProviderState) : Prop :=
  (∀ c ∈ ps.cyclesState.cycles, lacksTerminalDates c = true →
      ps.cyclesState.activeCycleId = some c.id)
    ∧ activeLikeCount ps.cyclesState ≤ 1

/-- One guarded step preserves `ActivePointerInv`. -/
theorem activePointerInv_step (ps : ProviderState) (t : TimedOp)
    (hinv : ActivePointerInv ps)
    (hguard : ∀ d, t.op = Op.create d → ps.cyclesState.activeCycleId = none) :
    ActivePointerInv (applyOp ps t) := by
  obtain ⟨hpt, _hcount⟩ := hinv
  obtain ⟨op, time⟩ := t
  cases op with
  | create d =>
      have hnone : ps.cyclesState.activeCycleId = none := hguard d rfl
      have hnolack : ∀ c ∈ ps.cyclesState.cycles, ¬ lacksTerminalDates c = true := by
        intro c hc hl
        have hh := hpt c hc hl
        rw [hnone] at hh
        exact Option.noConfusion hh
      constructor
      · intro c hc hl
        rw [applyOp_create_cycles] at hc
        rw [applyOp_create_activeId]
        rcases List.mem_append.mp hc with h1 | h2
        · exact absurd hl (hnolack c h1)
        · rw [List.mem_singleton.mp h2]
          rfl
      · rw [activeLikeCount, applyOp_create_cycles, List.filter_append,
          List.filter_eq_nil_iff.mpr hnolack]
        simp [lacksTerminalDates, newCycleOf]
  | interrupt =>
      have hno : ∀ c' ∈ (applyOp ps { op := Op.interrupt, time := time }).cyclesState.cycles,
          ¬ lacksTerminalDates c' = true := by
        rw [applyOp_interrupt_cycles]
        intro c' hc' hl
        rcases List.mem_map.mp hc' with ⟨c, hc, rfl⟩
        by_cases hid : some c.id = ps.cyclesState.activeCycleId
        · rw [if_pos hid] at hl
          simp [lacksTerminalDates] at hl
        · rw [if_neg hid] at hl
          exact hid (hpt c hc hl).symm
      refine ⟨fun c' hc' hl => absurd hl (hno c' hc'), ?_⟩
      rw [activeLikeCount, List.filter_eq_nil_iff.mpr hno]
      simp
  | finish =>
      have hno : ∀ c' ∈ (applyOp ps { op := Op.finish, time := time }).cyclesState.cycles,
          ¬ lacksTerminalDates c' = true := by
        rw [applyOp_finish_cycles]
        intro c' hc' hl
        rcases List.mem_map.mp hc' with ⟨c, hc, rfl⟩
        by_cases hid : some c.id = ps.cyclesState.activeCycleId
        · rw [if_pos hid] at hl
          simp [lacksTerminalDates] at hl
        · rw [if_neg hid] at hl
          exact hid (hpt c hc hl).symm
      refine ⟨fun c' hc' hl => absurd hl (hno c' hc'), ?_⟩
      rw [activeLikeCount, List.filter_eq_nil_iff.mpr hno]
      simp

/-- `ActivePointerInv` is preserved along every guarded trace. -/
theorem activePointerInv_run (ps : ProviderState) (ops : List TimedOp)
    (hinv : ActivePointerInv ps) (hg : guardedTrace ps ops = true) :
    ActivePointerInv (runOps ps ops) := by
  induction ops generalizing ps with
  | nil => exact hinv
  | cons t rest ih =>
      rw [guardedTrace, Bool.and_eq_true] at hg
      obtain ⟨h1, h2⟩ := hg
      refine ih (applyOp ps t) (activePointerInv_step ps t hinv ?_) h2
      intro d hd
      rw [hd] at h1
      exact of_decide_eq_true h1

/-- C1 counterexample: creating a second cycle while the first is still
active leaves two cycles lacking both terminal dates, so the claim as
stated — over all sequences of store calls — is false. -/
theorem at_most_one_active_counterexample :
    ¬ activeLikeCount (runOps initialProviderState
        [{ op := Op.create { task := "a", minutesAmount := 25 }, time := 5 },
         { op := Op.create { task := "b", minutesAmount := 10 }, time := 7 }]).cyclesState
      ≤ 1 := by
  decide

/-- C1 amended: the store always holds a single active-cycle reference
(the `activeCycleId` field), and for every sequence of create/interrupt/
finish calls in which each `createNewCycle` runs while no cycle is active
(the discipline the UI enforces), at most one cycle in the list lacks both
`interruptedDate` and `finishedDate`. -/
theorem at_most_one_active_guarded (ops : List TimedOp)
    (hg : guardedTrace initialProviderState ops = true) :
    activeLikeCount (runOps initialProviderState ops).cyclesState ≤ 1 :=
  (activePointerInv_run initialProviderState ops
    ⟨fun c hc _ => absurd hc (List.not_mem_nil c), by decide⟩ hg).2

/-- Sample guarded trace used by the witness below. -/
def sampleGuardedTrace : List TimedOp :=
  [{ op := Op.create { task := "a", minutesAmount := 25 }, time := 5 },
   { op := Op.interrupt, time := 7 },
   { op := Op.create { task := "b", minutesAmount := 10 }, time := 9 },
   { op := Op.finish, time := 11 }]

/-- Witness for `at_most_one_active_guarded` on a concrete guarded trace. -/
theorem at_most_one_active_guarded_witness :
    guardedTrace initialProviderState sampleGuardedTrace = true
      ∧ activeLikeCount (runOps initialProviderState sampleGuardedTrace).cyclesState ≤ 1 :=
  ⟨by decide, at_most_one_active_guarded sampleGuardedTrace (by decide)⟩

/-- Interrupting does not change the list of cycle ids. -/
theorem cycleIds_applyOp_interrupt (ps : ProviderState) (time : Nat) :
    cycleIds (applyOp ps { op := Op.interrupt, time := time }).cyclesState
      = cycleIds ps.cyclesState := by
  rw [cycleIds, applyOp_interrupt_cycles, List.map_map]
  apply List.map_congr_left
  intro c _
  by_cases h : some c.id = ps.cyclesState.activeCycleId <;> simp [Function.comp, h]

/-- Finishing does not change the list of cycle ids. -/
theorem cycleIds_applyOp_finish (ps : ProviderState) (time : Nat) :
    cycleIds (applyOp ps { op := Op.finish, time := time }).cyclesState
      = cycleIds ps.cyclesState := by
  rw [cycleIds, applyOp_finish_cycles, List.map_map]
  apply List.map_congr_left
  intro c _
  by_cases h : some c.id = ps.cyclesState.activeCycleId <;> simp [Function.comp, h]

/-- A create step appends the new id. -/
theorem cycleIds_applyOp_create (ps : ProviderState) (d : CreateCycleData) (time : Nat) :
    cycleIds (applyOp ps { op := Op.create d, time := time }).cyclesState
      = cycleIds ps.cyclesState ++ [toString time] := by
  rw [cycleIds, applyOp_create_cycles, List.map_append]
  rfl

/-- Along a fresh trace, distinctness of the cycle ids is preserved. -/
theorem nodup_cycleIds_run (ps : ProviderState) (ops : List TimedOp)
    (hnd : (cycleIds ps.cyclesState).Nodup)
    (hf : freshTrace ps ops = true) :
    (cycleIds (runOps ps ops).cyclesState).Nodup := by
  induction ops generalizing ps with
  | nil => exact hnd
  | cons t rest ih =>
      rw [freshTrace, Bool.and_eq_true] at hf
      obtain ⟨h1, h2⟩ := hf
      refine ih (applyOp ps t) ?_ h2
      obtain ⟨op, time⟩ := t
      cases op with
      | create d =>
          have hnotin : toString time ∉ cycleIds ps.cyclesState := of_decide_eq_true h1
          rw [cycleIds_applyOp_create, List.nodup_append]
          exact ⟨hnd, List.nodup_singleton _,
            fun a ha hb => hnotin ((List.mem_singleton.mp hb) ▸ ha)⟩
      | interrupt => rw [cycleIds_applyOp_interrupt]; exact hnd
      | finish => rw [cycleIds_applyOp_finish]; exact hnd

/-- C5 counterexample: two `createNewCycle` calls in the same millisecond
(id = `String(new Date().getTime())`) produce two cycles with the same id,
so the claim as stated — collision-freedom for every sequence — is
false. -/
theorem distinct_ids_counterexample :
    ¬ (cycleIds (runOps initialProviderState
        [{ op := Op.create { task := "a", minutesAmount := 25 }, time := 5 },
         { op := Op.create { task := "b", minutesAmount := 10 }, time := 5 }]).cyclesState).Nodup := by
  decide

/-- C5 amended: ids are pairwise distinct after every sequence of store
calls in which each created id — the decimal string of the creation
millisecond — differs from every id already in the list; in particular
whenever no two creations happen in the same millisecond. -/
theorem distinct_ids_fresh (ops : List TimedOp)
    (hf : freshTrace initialProviderState ops = true) :
    (cycleIds (runOps initialProviderState ops).cyclesState).Nodup :=
  nodup_cycleIds_run initialProviderState ops List.nodup_nil hf

/-- Sample fresh trace used by the witness below. -/
def sampleFreshTrace : List TimedOp :=
  [{ op := Op.create { task := "a", minutesAmount := 25 }, time := 5 },
   { op := Op.interrupt, time := 7 },
   { op := Op.create { task := "b", minutesAmount := 10 }, time := 9 },
   { op := Op.create { task := "c", minutesAmount := 15 }, time := 12 }]

/-- Witness for `distinct_ids_fresh` on a concrete fresh trace. -/
theorem distinct_ids_fresh_witness :
    freshTrace initialProviderState sampleFreshTrace = true
      ∧ (cycleIds (runOps initialProviderState sampleFreshTrace).cyclesState).Nodup :=
  ⟨by decide, distinct_ids_fresh sampleFreshTrace (by decide)⟩

/-- Running an appended trace runs the two parts in sequence. -/
theorem runOps_append (ps : ProviderState) (pre suf : List TimedOp) :
    runOps ps (pre ++ suf) = runOps (runOps ps pre) suf := by
  rw [runOps, runOps, runOps, List.foldl_append]

/-- Splitting a fresh trace at any point yields two fresh traces. -/
theorem freshTrace_append (ps : ProviderState) (pre suf : List TimedOp)
    (h : freshTrace ps (pre ++ suf) = true) :
    freshTrace ps pre = true ∧ freshTrace (runOps ps pre) suf = true := by
  induction pre generalizing ps with
  | nil => exact ⟨rfl, h⟩
  | cons t rest ih =>
      rw [List.cons_append, freshTrace, Bool.and_eq_true] at h
      obtain ⟨h1, h2⟩ := h
      obtain ⟨h3, h4⟩ := ih (applyOp ps t) h2
      refine ⟨?_, h4⟩
      rw [freshTrace, Bool.and_eq_true]
      exact ⟨h1, h3⟩

/-- Invariant behind terminal immutability: no terminal cycle bears the
active id. -/
def TerminalPointerInv (ps : ProviderState) : Prop :=
  ∀ c ∈ ps.cyclesState.cycles, isTerminal c = true →
    ps.cyclesState.activeCycleId ≠ some c.id

/-- One id-fresh step establishes `TerminalPointerInv` (no prior invariant
is needed: interrupt and finish clear the pointer, and a fresh create
points at an id no terminal cycle can bear). -/
theorem terminalPointerInv_step (ps : ProviderState) (t : TimedOp)
    (hguard : ∀ d, t.op = Op.create d → toString t.time ∉ cycleIds ps.cyclesState) :
    TerminalPointerInv (applyOp ps t) := by
  obtain ⟨op, time⟩ := t
  cases op with
  | create d =>
      intro c hc hterm
      rw [applyOp_create_cycles] at hc
      rw [applyOp_create_activeId]
      rcases List.mem_append.mp hc with h1 | h2
      · intro heq
        apply hguard d rfl
        rw [Option.some.injEq] at heq
        rw [cycleIds, heq]
        exact List.mem_map.mpr ⟨c, h1, rfl⟩
      · rw [List.mem_singleton.mp h2] at hterm
        simp [isTerminal, newCycleOf] at hterm
  | interrupt =>
      intro c _ _
      rw [applyOp_interrupt_activeId]
      exact fun heq => Option.noConfusion heq
  | finish =>
      intro c _ _
      rw [applyOp_finish_activeId]
      exact fun heq => Option.noConfusion heq

/-- Under `TerminalPointerInv`, one step leaves a terminal cycle (at its
position) completely unchanged. -/
theorem terminal_frame_step (ps : ProviderState) (t : TimedOp)
    (hinv : TerminalPointerInv ps) (k : Nat) (c : ICycle)
    (hk : ps.cyclesState.cycles[k]? = some c) (hterm : isTerminal c = true) :
    (applyOp ps t).cyclesState.cycles[k]? = some c := by
  obtain ⟨op, time⟩ := t
  have hmem : c ∈ ps.cyclesState.cycles := List.getElem?_mem hk
  have hne : ¬ some c.id = ps.cyclesState.activeCycleId :=
    fun h => hinv c hmem hterm h.symm
  cases op with
  | create d =>
      have hlt : k < ps.cyclesState.cycles.length := by
        rcases List.getElem?_eq_some.mp hk with ⟨h, _⟩
        exact h
      rw [applyOp_create_cycles, List.getElem?_append_left hlt]
      exact hk
  | interrupt =>
      rw [applyOp_interrupt_cycles, List.getElem?_map, hk]
      simp [hne]
  | finish =>
      rw [applyOp_finish_cycles, List.getElem?_map, hk]
      simp [hne]

/-- `TerminalPointerInv` is preserved along every fresh trace. -/
theorem terminalPointerInv_run (ps : ProviderState) (ops : List TimedOp)
    (hinv : TerminalPointerInv ps) (hf : freshTrace ps ops = true) :
    TerminalPointerInv (runOps ps ops) := by
  induction ops generalizing ps with
  | nil => exact hinv
  | cons t rest ih =>
      rw [freshTrace, Bool.and_eq_true] at hf
      obtain ⟨h1, h2⟩ := hf
      refine ih (applyOp ps t) (terminalPointerInv_step ps t ?_) h2
      intro d hd
      rw [hd] at h1
      exact of_decide_eq_true h1

/-- Along a fresh trace, a terminal cycle stays unchanged at its
position. -/
theorem terminal_frame_run (ps : ProviderState) (ops : List TimedOp) (k : Nat) (c : ICycle)
    (hinv : TerminalPointerInv ps) (hf : freshTrace ps ops = true)
    (hk : ps.cyclesState.cycles[k]? = some c) (hterm : isTerminal c = true) :
    (runOps ps ops).cyclesState.cycles[k]? = some c := by
  induction ops generalizing ps with
  | nil => exact hk
  | cons t rest ih =>
      rw [freshTrace, Bool.and_eq_true] at hf
      obtain ⟨h1, h2⟩ := hf
      have hguard : ∀ d, t.op = Op.create d → toString t.time ∉ cycleIds ps.cyclesState := by
        intro d hd
        rw [hd] at h1
        exact of_decide_eq_true h1
      exact ih (applyOp ps t) (terminalPointerInv_step ps t hguard) h2
        (terminal_frame_step ps t hinv k c hk hterm)

/-- One step never changes the `startDate` of an existing cycle. -/
theorem startDate_frame_step (ps : ProviderState) (t : TimedOp) (k : Nat) (c : ICycle)
    (hk : ps.cyclesState.cycles[k]? = some c) :
    ∃ c', (applyOp ps t).cyclesState.cycles[k]? = some c'
      ∧ c'.startDate = c.startDate := by
  obtain ⟨op, time⟩ := t
  cases op with
  | create d =>
      have hlt : k < ps.cyclesState.cycles.length := by
        rcases List.getElem?_eq_some.mp hk with ⟨h, _⟩
        exact h
      refine ⟨c, ?_, rfl⟩
      rw [applyOp_create_cycles, List.getElem?_append_left hlt]
      exact hk
  | interrupt =>
      refine ⟨if some c.id = ps.cyclesState.activeCycleId then
          { c with interruptedDate := some time } else c, ?_, ?_⟩
      · rw [applyOp_interrupt_cycles, List.getElem?_map, hk]
        rfl
      · by_cases h : some c.id = ps.cyclesState.activeCycleId <;> simp [h]
  | finish =>
      refine ⟨if some c.id = ps.cyclesState.activeCycleId then
          { c with finishedDate := some time } else c, ?_, ?_⟩
      · rw [applyOp_finish_cycles, List.getElem?_map, hk]
        rfl
      · by_cases h : some c.id = ps.cyclesState.activeCycleId <;> simp [h]

/-- Along any trace, the `startDate` of an existing cycle never changes. -/
theorem startDate_frame_run (ps : ProviderState) (ops : List TimedOp) (k : Nat) (c : ICycle)
    (hk : ps.cyclesState.cycles[k]? = some c) :
    ∃ c', (runOps ps ops).cyclesState.cycles[k]? = some c'
      ∧ c'.startDate = c.startDate := by
  induction ops generalizing ps c with
  | nil => exact ⟨c, hk, rfl⟩
  | cons t rest ih =>
      obtain ⟨c1, hc1, hs1⟩ := startDate_frame_step ps t k c hk
      obtain ⟨c2, hc2, hs2⟩ := ih (applyOp ps t) c1 hc1
      exact ⟨c2, hc2, hs2.trans hs1⟩

/-- Trace whose third creation reuses the millisecond (hence the id) of the
first cycle. -/
def collidingTracePre : List TimedOp :=
  [{ op := Op.create { task := "a", minutesAmount := 25 }, time := 5 },
   { op := Op.interrupt, time := 6 },
   { op := Op.create { task := "b", minutesAmount := 10 }, time := 5 }]

/-- C6 counterexample: after `collidingTracePre` the first cycle is
terminal with `interruptedDate = 6`, and the second cycle reuses its id
`"5"`; the next interrupt stamps every cycle with that id, overwriting the
terminal cycle's `interruptedDate` to `7` — so the claim as stated is
false. -/
theorem terminal_cycles_immutable_counterexample :
    ((runOps initialProviderState collidingTracePre).cyclesState.cycles.map
        ICycle.interruptedDate = [some 6, none])
      ∧ ((runOps initialProviderState
            (collidingTracePre ++ [{ op := Op.interrupt, time := 7 }])).cyclesState.cycles.map
          ICycle.interruptedDate = [some 7, some 7]) := by
  decide

/-- C6 amended: provided every created id is fresh (no two creations in
the same millisecond), once a cycle has `interruptedDate` or
`finishedDate` set no subsequent operation changes any of its fields; and
— unconditionally — no operation ever changes the `startDate` of any
existing cycle. -/
theorem terminal_cycles_immutable :
    (∀ pre suf : List TimedOp, ∀ k : Nat, ∀ c : ICycle,
        freshTrace initialProviderState (pre ++ suf) = true →
        (runOps initialProviderState pre).cyclesState.cycles[k]? = some c →
        isTerminal c = true →
        (runOps initialProviderState (pre ++ suf)).cyclesState.cycles[k]? = some c)
      ∧ (∀ ps : ProviderState, ∀ ops : List TimedOp, ∀ k : Nat, ∀ c : ICycle,
          ps.cyclesState.cycles[k]? = some c →
          ∃ c', (runOps ps ops).cyclesState.cycles[k]? = some c'
            ∧ c'.startDate = c.startDate) := by
  constructor
  · intro pre suf k c hf hk hterm
    obtain ⟨hf1, hf2⟩ := freshTrace_append initialProviderState pre suf hf
    have hinv0 : TerminalPointerInv initialProviderState :=
      fun c hc _ => absurd hc (List.not_mem_nil c)
    rw [runOps_append]
    exact terminal_frame_run (runOps initialProviderState pre) suf k c
      (terminalPointerInv_run initialProviderState pre hinv0 hf1) hf2 hk hterm
  · exact startDate_frame_run

/-- Witness for `terminal_cycles_immutable`: along a fresh trace the first
cycle, terminal after the prefix, survives the suffix unchanged. -/
theorem terminal_cycles_immutable_witness :
    freshTrace initialProviderState
        ([{ op := Op.create { task := "a", minutesAmount := 25 }, time := 5 },
           { op := Op.interrupt, time := 6 }]
          ++ [{ op := Op.create { task := "b", minutesAmount := 10 }, time := 9 },
              { op := Op.interrupt, time := 11 }]) = true
      ∧ (runOps initialProviderState
          ([{ op := Op.create { task := "a", minutesAmount := 25 }, time := 5 },
             { op := Op.interrupt, time := 6 }]
            ++ [{ op := Op.create { task := "b", minutesAmount := 10 }, time := 9 },
                { op := Op.interrupt, time := 11 }])).cyclesState.cycles[0]?
        = some { id := "5", task := "a", minutesAmount := 25, startDate := 5,
                 interruptedDate := some 6, finishedDate := none } :=
  ⟨by decide,
   terminal_cycles_immutable.1
     [{ op := Op.create { task := "a", minutesAmount := 25 }, time := 5 },
      { op := Op.interrupt, time := 6 }]
     [{ op := Op.create { task := "b", minutesAmount := 10 }, time := 9 },
      { op := Op.interrupt, time := 11 }]
     0
     { id := "5", task := "a", minutesAmount := 25, startDate := 5,
       interruptedDate := some 6, finishedDate := none }
     (by decide) (by decide) (by decide)⟩

/-- C9 counterexample: the zod schema accepts `task = "x"`,
`minutesAmount = 3/2` (the lower-bound-1 policy), yet `3/2` is not an
integer, so acceptance is not equivalent to the claimed condition — the
schema checks neither integrality nor trimming. -/
theorem form_validation_counterexample :
    ¬ (newCycleFormValidationSchema
          { task := "x", minutesAmount := ⟨3, 2, by decide, by decide⟩ } = []
        ↔ specFormAccepts 1 { task := "x", minutesAmount := ⟨3, 2, by decide, by decide⟩ }) := by
  intro h
  have ha : newCycleFormValidationSchema
      { task := "x", minutesAmount := ⟨3, 2, by decide, by decide⟩ } = [] := by decide
  have hb := h.mp ha
  have : ((⟨3, 2, by decide, by decide⟩ : ℚ)).den = 1 := hb.2.1
  exact absurd this (by decide)

/-- C9 amended: the current schema accepts a raw input iff the task string
is non-empty as given (no trimming: whitespace-only tasks pass) and
`minutesAmount` is any number — integrality is not checked — within
`[1, 60]`; the earlier `Home` revision is identical with lower bound 5.
Rejected inputs produce field-level error messages. -/
theorem form_validation_accepts_iff (input : NewCycleRawInput) :
    (newCycleFormValidationSchema input = []
        ↔ 1 ≤ input.task.length ∧ 1 ≤ input.minutesAmount ∧ input.minutesAmount ≤ 60)
      ∧ (newCycleFormValidationSchemaMinFive input = []
        ↔ 1 ≤ input.task.length ∧ 5 ≤ input.minutesAmount ∧ input.minutesAmount ≤ 60) := by
  constructor
  · rw [newCycleFormValidationSchema]
    simp only [List.append_eq_nil, ite_eq_right_iff, reduceCtorEq, imp_false, not_lt]
    tauto
  · rw [newCycleFormValidationSchemaMinFive]
    simp only [List.append_eq_nil, ite_eq_right_iff, reduceCtorEq, imp_false, not_lt]
    tauto

/-- Witness for `form_validation_accepts_iff`: a concrete input accepted by
both schemas. -/
theorem form_validation_accepts_iff_witness :
    newCycleFormValidationSchema { task := "x", minutesAmount := 25 } = [] :=
  (form_validation_accepts_iff { task := "x", minutesAmount := 25 }).1.mpr
    ⟨by decide, by decide, by decide⟩

end IgniteTimer
